import Mathlib

/-!
A shallow embedding of `gen_suite.py`, a batch conversion script: it walks a
directory tree with `Path.rglob('*svg')`, sorts the hits, renders each to a
PNG via `cairosvg.svg2png` into `input.with_suffix('.png')`, and reports a
success/failure summary.

The filesystem below the input directory is modelled as a list of `PyPath`
entries in arbitrary listing order.  The external rendering library is an
oracle `render : PyPath → Option String`: `none` means the call succeeds and
writes the output file, `some e` means it raises an exception whose message
is `e`.  All observable effects (exit code, counters, stdout/stderr lines,
files written) are returned explicitly.
-/

/-- A filesystem path as pathlib represents it: the parent directory's
components and the final name component. -/
structure PyPath where
  parent : List String
  name : String

deriving instance DecidableEq for PyPath

deriving instance Repr for PyPath

/-- The component tuple pathlib compares paths by (`self._parts`): parent
components followed by the name, each string taken as its code points
(CPython compares the tuples lexicographically and the strings by code
point, which is exactly lexicographic order on `List Char`). -/
def PyPath.key (p : PyPath) : List (List Char) :=
  p.parent.map String.data ++ [p.name.data]

theorem PyPath.key_injective : Function.Injective PyPath.key := by
  intro p q h
  have hlen : (p.parent.map String.data).length = (q.parent.map String.data).length := by
    have hl := congrArg List.length h
    simp [PyPath.key] at hl
    simpa using hl
  obtain ⟨h1, h2⟩ := List.append_inj h hlen
  have hdata : Function.Injective String.data := by
    intro s t hst
    cases s
    cases t
    exact congrArg String.mk hst
  cases p
  cases q
  simp only [List.cons.injEq, and_true] at h2
  have hp := List.map_injective_iff.mpr hdata h1
  simp_all [hdata h2]

/-- Paths compare as their component tuples do under `sorted`. -/
instance : LinearOrder PyPath :=
  LinearOrder.lift' PyPath.key PyPath.key_injective

/-- The rendered form of a path, as `str(path)` inside the f-strings. -/
def pathStr (p : PyPath) : String :=
  String.intercalate "/" (p.parent ++ [p.name])

/-- The characters from the last dot of a name onward, or `none` when the
name has no dot (the recursion prefers a dot found later in the list). -/
def lastDotDrop : List Char → Option (List Char)
  | [] => none
  | c :: rest =>
    match lastDotDrop rest with
    | some s => some s
    | none => if c = '.' then some (c :: rest) else none

/-- `PurePath.suffix` on a name's characters: CPython takes
`i = name.rfind('.')` and returns `name[i:]` when `0 < i < len(name) - 1`,
else the empty string.  In terms of the tail from the last dot `s`,
`i = len - len(s)`, so the guard reads `1 < len(s) < len(name)`. -/
def pySuffix (cs : List Char) : List Char :=
  match lastDotDrop cs with
  | some s => if 1 < s.length ∧ s.length < cs.length then s else []
  | none => []

/-- `PurePath.stem`: the final component without its suffix. -/
def pyStem (cs : List Char) : List Char :=
  cs.take (cs.length - (pySuffix cs).length)

/-- `input_file.with_suffix('.png')`: drop the current suffix from the name
and append `.png`; the parent is unchanged.  CPython branches on whether the
old suffix is empty (`name + suffix` versus `name[:-len(old_suffix)] + suffix`);
`take (len - 0) = name` makes the single `take` formula cover both branches. -/
def withSuffixPng (p : PyPath) : PyPath :=
  ⟨p.parent, ⟨p.name.data.take (p.name.data.length - (pySuffix p.name.data).length)
      ++ ".png".data⟩⟩

/-- The fnmatch test of the glob pattern `*svg` on a final name component:
the name ends with the three characters `svg`, case-sensitively. -/
def matchesSvg (p : PyPath) : Bool :=
  "svg".data.isSuffixOf p.name.data

/-- `find_files`: `sorted(input_dir.rglob('*svg'))`.  `rglob` yields the
entries of the tree whose name matches `*svg`, in filesystem listing order;
`sorted` orders them by pathlib's path order.  `insertionSort` stands for
CPython's sort: over a linear order both produce the unique sorted
permutation of their input. -/
def find_files (entries : List PyPath) : List PyPath :=
  List.insertionSort (· ≤ ·) (entries.filter matchesSvg)

/-- What one `process_file` call produces: the boolean it returns, the files
that exist afterwards, its stderr and stdout lines, and the output files the
rendering call wrote. -/
structure FileResult where
  ok : Bool
  fs : List PyPath
  stderr : List String
  stdout : List String
  writes : List PyPath

/-- `process_file`: derive `output_file = input_file.with_suffix('.png')`,
unlink it if it exists (removal is the filter; when the file does not exist
the filter keeps everything, matching the skipped branch), then call
`cairosvg.svg2png(url=input, write_to=output, 200, 200)`.  On success the
output file exists and `True` is returned; an exception is caught, logged to
stderr, and `False` is returned. -/
def process_file (render : PyPath → Option String) (fs : List PyPath)
    (input : PyPath) : FileResult :=
  let output := withSuffixPng input
  let fs1 := fs.filter (fun q => q ≠ output)
  match render input with
  | none => ⟨true, output :: fs1, [], ["✓ Processed: " ++ pathStr input], [output]⟩
  | some e => ⟨false, fs1, ["Exception processing " ++ pathStr input ++ ": " ++ e], [], []⟩

/-- What the processing loop accumulates: the two counters, the filesystem
after all calls, the log lines, and the files written. -/
structure LoopResult where
  successful : Nat
  failed : Nat
  fs : List PyPath
  stderr : List String
  stdout : List String
  writes : List PyPath

/-- The `for input_file in files_to_process` loop of `main`: each file goes
through `process_file` once and bumps exactly one of the two counters. -/
def processLoop (render : PyPath → Option String) (fs : List PyPath) :
    List PyPath → LoopResult
  | [] => ⟨0, 0, fs, [], [], []⟩
  | f :: rest =>
    let r := process_file render fs f
    let rs := processLoop render r.fs rest
    ⟨(if r.ok then 1 else 0) + rs.successful,
     (if r.ok then 0 else 1) + rs.failed,
     rs.fs, r.stderr ++ rs.stderr, r.stdout ++ rs.stdout, r.writes ++ rs.writes⟩

/-- What a whole run of `main` produces.  `traversed` records whether
`find_files` was reached (it is not when the input path is rejected). -/
structure MainResult where
  exitCode : Nat
  traversed : Bool
  found : List PyPath
  successful : Nat
  failed : Nat
  fs : List PyPath
  stderr : List String
  stdout : List String
  writes : List PyPath

/-- The line of fifty equals signs around the summary. -/
def eqLine : String :=
  String.mk (List.replicate 50 '=')

/-- The block `main` prints after the loop (the leading empty string is the
blank line from the `\n` in the first print). -/
def summaryLines (successful failed total : Nat) : List String :=
  ["", eqLine, "Processing complete:",
   "  Successful: " ++ toString successful,
   "  Failed: " ++ toString failed,
   "  Total: " ++ toString total,
   eqLine]

/-- `main` after argument parsing: reject a missing or non-directory input
with exit code 1 before any traversal; discover the files; exit 0 on an
empty result; otherwise run the loop, print the summary, and exit 1 exactly
when some file failed. -/
def runMain (inputExists isDir : Bool) (inputName : String)
    (entries : List PyPath) (render : PyPath → Option String) : MainResult :=
  if inputExists = false then
    ⟨1, false, [], 0, 0, entries,
     ["Error: Input directory does not exist: " ++ inputName], [], []⟩
  else if isDir = false then
    ⟨1, false, [], 0, 0, entries,
     ["Error: Input path is not a directory: " ++ inputName], [], []⟩
  else
    let found := find_files entries
    if found.isEmpty then
      ⟨0, true, found, 0, 0, entries, [], ["No files found in " ++ inputName], []⟩
    else
      let r := processLoop render entries found
      ⟨if r.failed > 0 then 1 else 0, true, found, r.successful, r.failed, r.fs,
       r.stderr,
       ("Found " ++ toString found.length ++ " file(s) to process") ::
         r.stdout ++ summaryLines r.successful r.failed found.length,
       r.writes⟩

/-! ### Facts about suffix and stem computation -/

theorem lastDotDrop_append (xs ys s : List Char) (h : lastDotDrop ys = some s) :
    lastDotDrop (xs ++ ys) = some s := by
  induction xs with
  | nil => simpa using h
  | cons c cs ih => simp [lastDotDrop, ih]

theorem lastDotDrop_suffix (cs s : List Char) (h : lastDotDrop cs = some s) :
    s <:+ cs := by
  induction cs with
  | nil => simp [lastDotDrop] at h
  | cons c rest ih =>
    rw [lastDotDrop] at h
    cases hld : lastDotDrop rest with
    | some t =>
      rw [hld] at h
      simp only [Option.some.injEq] at h
      subst h
      exact (ih hld).trans (List.suffix_cons c rest)
    | none =>
      rw [hld] at h
      by_cases hdot : c = '.'
      · subst hdot
        rw [if_pos rfl] at h
        simp only [Option.some.injEq] at h
        subst h
        exact List.suffix_rfl
      · simp [hdot] at h

theorem pySuffix_suffix (cs : List Char) : pySuffix cs <:+ cs := by
  rw [pySuffix]
  cases h : lastDotDrop cs with
  | none => exact List.nil_suffix
  | some s =>
    by_cases hg : 1 < s.length ∧ s.length < cs.length
    · simpa [hg] using lastDotDrop_suffix cs s h
    · simp only [if_neg hg]
      exact List.nil_suffix

theorem pyStem_append_pySuffix (cs : List Char) : pyStem cs ++ pySuffix cs = cs := by
  obtain ⟨t, ht⟩ := pySuffix_suffix cs
  have hlen : cs.length - (pySuffix cs).length = t.length := by
    have hl := congrArg List.length ht
    simp only [List.length_append] at hl
    omega
  have hst : pyStem cs = t := by
    rw [pyStem, hlen]
    calc List.take t.length cs = List.take t.length (t ++ pySuffix cs) := by rw [ht]
    _ = t := List.take_left t _
  rw [hst, ht]

theorem pySuffix_length_lt (cs : List Char) (h : pySuffix cs ≠ []) :
    (pySuffix cs).length < cs.length := by
  rw [pySuffix] at h ⊢
  cases hld : lastDotDrop cs with
  | none => rw [hld] at h; simp at h
  | some s =>
    rw [hld] at h
    by_cases hg : 1 < s.length ∧ s.length < cs.length
    · simp [hg]
    · simp [hg] at h

theorem pyStem_ne_nil (cs : List Char) (h : cs ≠ []) : pyStem cs ≠ [] := by
  by_cases hs : pySuffix cs = []
  · rw [pyStem, hs]
    simpa using h
  · have hlt := pySuffix_length_lt cs hs
    rw [pyStem]
    intro hc
    rcases List.take_eq_nil_iff.mp hc with h0 | h0
    · omega
    · exact h h0

theorem pySuffix_append_png (st : List Char) (h : st ≠ []) :
    pySuffix (st ++ ".png".data) = ".png".data := by
  have hld : lastDotDrop (st ++ ".png".data) = some ".png".data :=
    lastDotDrop_append st _ _ rfl
  rw [pySuffix, hld]
  have hpos : 0 < st.length := List.length_pos.mpr h
  have hg : 1 < ".png".data.length ∧ ".png".data.length < (st ++ ".png".data).length := by
    refine ⟨by decide, ?_⟩
    simp only [List.length_append]
    omega
  simp [hg]
  exact h

theorem pyStem_append_png (st : List Char) (h : st ≠ []) :
    pyStem (st ++ ".png".data) = st := by
  rw [pyStem, pySuffix_append_png st h]
  have hl : (st ++ ".png".data).length - ".png".data.length = st.length := by simp
  rw [hl, List.take_left]

/-! ### Facts about the derived output path -/

theorem withSuffixPng_parent (p : PyPath) : (withSuffixPng p).parent = p.parent := rfl

theorem withSuffixPng_name (p : PyPath) :
    (withSuffixPng p).name.data = pyStem p.name.data ++ ".png".data := rfl

theorem pyStem_withSuffixPng (p : PyPath) (h : p.name.data ≠ []) :
    pyStem (withSuffixPng p).name.data = pyStem p.name.data := by
  rw [withSuffixPng_name, pyStem_append_png _ (pyStem_ne_nil _ h)]

theorem stringData_injective : Function.Injective String.data := by
  intro s t h
  cases s
  cases t
  exact congrArg String.mk h

theorem withSuffixPng_inj_on_svg (p q : PyPath)
    (hp : pySuffix p.name.data = ".svg".data)
    (hq : pySuffix q.name.data = ".svg".data)
    (h : withSuffixPng p = withSuffixPng q) : p = q := by
  have hpar : p.parent = q.parent := by
    have h2 := congrArg PyPath.parent h
    rw [withSuffixPng_parent, withSuffixPng_parent] at h2
    exact h2
  have hname : (withSuffixPng p).name.data = (withSuffixPng q).name.data := by rw [h]
  rw [withSuffixPng_name, withSuffixPng_name] at hname
  have hstem : pyStem p.name.data = pyStem q.name.data :=
    (List.append_inj' hname rfl).1
  have hfull : p.name.data = q.name.data := by
    rw [← pyStem_append_pySuffix p.name.data, ← pyStem_append_pySuffix q.name.data,
      hp, hq, hstem]
  have hnm : p.name = q.name := stringData_injective hfull
  cases p
  cases q
  simp_all

/-! ### Facts about the pattern match -/

theorem isPrefixOf_gvs (cs : List Char) :
    List.isPrefixOf ['g', 'v', 's'] cs = true ↔ ∃ t, cs = 'g' :: 'v' :: 's' :: t := by
  match cs with
  | [] => simp [List.isPrefixOf]
  | [c1] => simp [List.isPrefixOf]
  | [c1, c2] => simp [List.isPrefixOf]
  | c1 :: c2 :: c3 :: t =>
    simp only [List.isPrefixOf, Bool.and_eq_true, beq_iff_eq, List.cons.injEq]
    constructor
    · rintro ⟨h1, h2, h3, -⟩
      exact ⟨t, by simp [h1.symm, h2.symm, h3.symm]⟩
    · rintro ⟨u, h1, h2, h3, h4⟩
      simp [h1, h2, h3]

theorem matchesSvg_iff (p : PyPath) :
    matchesSvg p = true ↔ ∃ t, p.name.data = t ++ "svg".data := by
  have hsvg : "svg".data = ['s', 'v', 'g'] := rfl
  rw [matchesSvg, List.isSuffixOf]
  have hrev : "svg".data.reverse = ['g', 'v', 's'] := rfl
  rw [hrev, isPrefixOf_gvs, hsvg]
  constructor
  · rintro ⟨t, ht⟩
    refine ⟨t.reverse, ?_⟩
    have hr := congrArg List.reverse ht
    simpa using hr
  · rintro ⟨t, ht⟩
    refine ⟨t.reverse, ?_⟩
    rw [ht]
    simp

theorem matchesSvg_name_ne_nil (p : PyPath) (h : matchesSvg p = true) :
    p.name.data ≠ [] := by
  obtain ⟨t, ht⟩ := (matchesSvg_iff p).mp h
  rw [ht]
  simp

theorem matchesSvg_last_three (p : PyPath) (base : List Char) (c1 c2 c3 : Char)
    (hn : p.name.data = base ++ [c1, c2, c3]) :
    matchesSvg p = true ↔ [c1, c2, c3] = ['s', 'v', 'g'] := by
  rw [matchesSvg_iff, hn]
  constructor
  · rintro ⟨t, ht⟩
    have hlen : base.length = t.length := by
      have hl := congrArg List.length ht
      simp at hl
      omega
    exact (List.append_inj ht hlen).2
  · intro hc
    exact ⟨base, by rw [hc]⟩

/-! ### Facts about discovery -/

theorem find_files_sorted (entries : List PyPath) :
    (find_files entries).Sorted (· ≤ ·) :=
  List.sorted_insertionSort _ _

theorem find_files_perm (entries : List PyPath) :
    (find_files entries).Perm (entries.filter matchesSvg) :=
  List.perm_insertionSort _ _

theorem mem_find_files (entries : List PyPath) (p : PyPath) :
    p ∈ find_files entries ↔ p ∈ entries ∧ matchesSvg p = true := by
  rw [(find_files_perm entries).mem_iff, List.mem_filter]

theorem find_files_congr (entries entries' : List PyPath)
    (h : entries.Perm entries') : find_files entries = find_files entries' := by
  apply List.eq_of_perm_of_sorted _ (find_files_sorted entries) (find_files_sorted entries')
  exact (find_files_perm entries).trans
    ((h.filter matchesSvg).trans (find_files_perm entries').symm)

theorem find_files_nodup (entries : List PyPath) (h : entries.Nodup) :
    (find_files entries).Nodup :=
  (find_files_perm entries).nodup_iff.mpr (h.filter matchesSvg)

theorem find_files_empty_of_no_match (entries : List PyPath)
    (h : ∀ p ∈ entries, matchesSvg p = false) : find_files entries = [] := by
  rw [find_files, List.filter_eq_nil_iff.mpr (by simpa using h)]
  rfl

/-! ### Facts about one conversion -/

theorem process_file_none (render : PyPath → Option String) (fs : List PyPath)
    (f : PyPath) (h : render f = none) :
    process_file render fs f =
      ⟨true, withSuffixPng f :: fs.filter (fun q => q ≠ withSuffixPng f), [],
       ["✓ Processed: " ++ pathStr f], [withSuffixPng f]⟩ := by
  simp [process_file, h]

theorem process_file_some (render : PyPath → Option String) (fs : List PyPath)
    (f : PyPath) (e : String) (h : render f = some e) :
    process_file render fs f =
      ⟨false, fs.filter (fun q => q ≠ withSuffixPng f),
       ["Exception processing " ++ pathStr f ++ ": " ++ e], [], []⟩ := by
  simp [process_file, h]

theorem process_file_ok_iff (render : PyPath → Option String) (fs : List PyPath)
    (f : PyPath) : (process_file render fs f).ok = true ↔ render f = none := by
  cases h : render f with
  | none => rw [process_file_none render fs f h]; simp
  | some e => rw [process_file_some render fs f e h]; simp

/-! ### Facts about the processing loop -/

theorem processLoop_total (render : PyPath → Option String) (l : List PyPath) :
    ∀ fs, (processLoop render fs l).successful + (processLoop render fs l).failed
      = l.length := by
  induction l with
  | nil => intro fs; rfl
  | cons f rest ih =>
    intro fs
    simp only [processLoop, List.length_cons]
    have := ih (process_file render fs f).fs
    cases (process_file render fs f).ok <;> simp <;> omega

theorem processLoop_failed_zero_iff (render : PyPath → Option String)
    (l : List PyPath) :
    ∀ fs, (processLoop render fs l).failed = 0 ↔ ∀ p ∈ l, render p = none := by
  induction l with
  | nil => intro fs; simp [processLoop]
  | cons f rest ih =>
    intro fs
    simp only [processLoop, List.mem_cons]
    cases hr : render f with
    | none =>
      rw [process_file_none render fs f hr]
      simp only [if_true, Nat.zero_add]
      rw [ih]
      constructor
      · intro hall p hp
        rcases hp with hp | hp
        · rw [hp]; exact hr
        · exact hall p hp
      · intro hall p hp
        exact hall p (Or.inr hp)
    | some e =>
      rw [process_file_some render fs f e hr]
      simp only [if_false, Bool.false_eq_true]
      constructor
      · intro hc
        omega
      · intro hall
        have hf := hall f (Or.inl rfl)
        rw [hf] at hr
        cases hr

theorem processLoop_stderr_mem (render : PyPath → Option String) (p : PyPath)
    (e : String) (he : render p = some e) :
    ∀ (l : List PyPath) (fs : List PyPath), p ∈ l →
      ("Exception processing " ++ pathStr p ++ ": " ++ e) ∈
        (processLoop render fs l).stderr := by
  intro l
  induction l with
  | nil => intro fs hp; cases hp
  | cons f rest ih =>
    intro fs hp
    simp only [processLoop, List.mem_append]
    rcases List.mem_cons.mp hp with h | h
    · left
      subst h
      rw [process_file_some render fs p e he]
      simp
    · right
      exact ih _ h

theorem processLoop_writes_all_ok (render : PyPath → Option String) :
    ∀ (l : List PyPath) (fs : List PyPath), (∀ p ∈ l, render p = none) →
      (processLoop render fs l).writes = l.map withSuffixPng := by
  intro l
  induction l with
  | nil => intro fs _; rfl
  | cons f rest ih =>
    intro fs h
    have hf : render f = none := h f (List.mem_cons_self f rest)
    simp only [processLoop, List.map_cons]
    rw [process_file_none render fs f hf]
    rw [ih _ (fun q hq => h q (List.mem_cons_of_mem f hq))]
    rfl

theorem processLoop_fs_mem (render : PyPath → Option String) (x : PyPath) :
    ∀ (l : List PyPath) (fs : List PyPath), x ∈ fs →
      (∀ q ∈ l, x ≠ withSuffixPng q) → x ∈ (processLoop render fs l).fs := by
  intro l
  induction l with
  | nil => intro fs hx _; simpa [processLoop] using hx
  | cons f rest ih =>
    intro fs hx hq
    have hxf : x ≠ withSuffixPng f := hq f (List.mem_cons_self f rest)
    have hx1 : x ∈ fs.filter (fun q => q ≠ withSuffixPng f) := by
      rw [List.mem_filter]
      exact ⟨hx, by simpa using hxf⟩
    simp only [processLoop]
    cases hr : render f with
    | none =>
      rw [process_file_none render fs f hr]
      exact ih _ (List.mem_cons_of_mem _ hx1)
        (fun q hq' => hq q (List.mem_cons_of_mem f hq'))
    | some e =>
      rw [process_file_some render fs f e hr]
      exact ih _ hx1 (fun q hq' => hq q (List.mem_cons_of_mem f hq'))

theorem processLoop_outputs_mem (render : PyPath → Option String) :
    ∀ (l : List PyPath) (fs : List PyPath), (∀ p ∈ l, render p = none) →
      (l.map withSuffixPng).Nodup →
      ∀ p ∈ l, withSuffixPng p ∈ (processLoop render fs l).fs := by
  intro l
  induction l with
  | nil => intro fs _ _ p hp; cases hp
  | cons f rest ih =>
    intro fs hok hnd p hp
    have hf : render f = none := hok f (List.mem_cons_self f rest)
    rw [List.map_cons] at hnd
    have hnd' := List.nodup_cons.mp hnd
    simp only [processLoop]
    rw [process_file_none render fs f hf]
    rcases List.mem_cons.mp hp with h | h
    · subst h
      apply processLoop_fs_mem
      · exact List.mem_cons_self _ _
      · intro q hq hc
        exact hnd'.1 (hc ▸ List.mem_map_of_mem withSuffixPng hq)
    · exact ih _ (fun q hq => hok q (List.mem_cons_of_mem f hq)) hnd'.2 p h

/-! ### Facts about a whole run -/

theorem runMain_missing (isDir : Bool) (nm : String) (entries : List PyPath)
    (render : PyPath → Option String) :
    runMain false isDir nm entries render =
      ⟨1, false, [], 0, 0, entries,
       ["Error: Input directory does not exist: " ++ nm], [], []⟩ := rfl

theorem runMain_notdir (nm : String) (entries : List PyPath)
    (render : PyPath → Option String) :
    runMain true false nm entries render =
      ⟨1, false, [], 0, 0, entries,
       ["Error: Input path is not a directory: " ++ nm], [], []⟩ := rfl

theorem runMain_empty (nm : String) (entries : List PyPath)
    (render : PyPath → Option String) (h : find_files entries = []) :
    runMain true true nm entries render =
      ⟨0, true, [], 0, 0, entries, [], ["No files found in " ++ nm], []⟩ := by
  simp [runMain, h]

theorem runMain_run (nm : String) (entries : List PyPath)
    (render : PyPath → Option String) (h : find_files entries ≠ []) :
    runMain true true nm entries render =
      ⟨if (processLoop render entries (find_files entries)).failed > 0 then 1 else 0,
       true, find_files entries,
       (processLoop render entries (find_files entries)).successful,
       (processLoop render entries (find_files entries)).failed,
       (processLoop render entries (find_files entries)).fs,
       (processLoop render entries (find_files entries)).stderr,
       ("Found " ++ toString (find_files entries).length ++ " file(s) to process") ::
         (processLoop render entries (find_files entries)).stdout
         ++ summaryLines (processLoop render entries (find_files entries)).successful
             (processLoop render entries (find_files entries)).failed
             (find_files entries).length,
       (processLoop render entries (find_files entries)).writes⟩ := by
  simp [runMain, List.isEmpty_iff, h]

theorem runMain_found (nm : String) (entries : List PyPath)
    (render : PyPath → Option String) :
    (runMain true true nm entries render).found = find_files entries := by
  by_cases hemp : find_files entries = []
  · rw [runMain_empty nm entries render hemp, hemp]
  · rw [runMain_run nm entries render hemp]

theorem runMain_exit_iff (nm : String) (entries : List PyPath)
    (render : PyPath → Option String) :
    (runMain true true nm entries render).exitCode = 0 ↔
      ∀ p ∈ find_files entries, render p = none := by
  by_cases hemp : find_files entries = []
  · rw [runMain_empty nm entries render hemp, hemp]
    simp
  · rw [runMain_run nm entries render hemp]
    show (if (processLoop render entries (find_files entries)).failed > 0 then 1 else 0) = 0
      ↔ ∀ p ∈ find_files entries, render p = none
    rw [← processLoop_failed_zero_iff render (find_files entries) entries]
    split
    · omega
    · omega

/-! ### The claims -/

/-- C1, counterexample: discovery does not return exactly the files with an
SVG extension.  The glob pattern is `*svg`, so the file `asvg`, whose
pathlib suffix is empty rather than `.svg`, is returned. -/
theorem C1_counterexample :
    (⟨[], "asvg"⟩ : PyPath) ∈ find_files [(⟨[], "asvg"⟩ : PyPath)]
    ∧ pySuffix (String.data "asvg") ≠ ".svg".data := by
  decide

/-- C1, amended: `find_files` returns, in sorted path order, exactly the
entries of the tree whose final name component ends in `svg`,
case-sensitively; no entry whose name does not end in `svg` is included. -/
theorem C1_discovery (entries : List PyPath) :
    (find_files entries).Sorted (· ≤ ·)
    ∧ (find_files entries).Perm (entries.filter matchesSvg)
    ∧ ∀ p, p ∈ find_files entries ↔ p ∈ entries ∧ matchesSvg p = true :=
  ⟨find_files_sorted entries, find_files_perm entries,
   fun p => mem_find_files entries p⟩

/-- C2: the exit code is 0 exactly when every discovered file renders
successfully (vacuously so for an empty discovery), and a missing or
non-directory input exits 1 with an error message before any traversal. -/
theorem C2_exit_codes (inputExists isDir : Bool) (nm : String)
    (entries : List PyPath) (render : PyPath → Option String) :
    (inputExists = true → isDir = true →
      ((runMain inputExists isDir nm entries render).exitCode = 0 ↔
        ∀ p ∈ (runMain inputExists isDir nm entries render).found,
          render p = none))
    ∧ (¬(inputExists = true ∧ isDir = true) →
      (runMain inputExists isDir nm entries render).exitCode = 1
      ∧ (runMain inputExists isDir nm entries render).traversed = false
      ∧ (runMain inputExists isDir nm entries render).stderr ≠ []) := by
  constructor
  · intro h1 h2
    subst h1
    subst h2
    rw [runMain_found]
    exact runMain_exit_iff nm entries render
  · intro hinv
    cases hex : inputExists with
    | false =>
      rw [runMain_missing isDir nm entries render]
      exact ⟨rfl, rfl, by simp⟩
    | true =>
      cases hdir : isDir with
      | false =>
        rw [runMain_notdir nm entries render]
        exact ⟨rfl, rfl, by simp⟩
      | true =>
        subst hex
        subst hdir
        exact absurd ⟨rfl, rfl⟩ hinv

/-- C2, witness: a one-file successful run exits 0; a run on a missing
input exits 1. -/
theorem C2_witness :
    (runMain true true "in" [(⟨[], "a.svg"⟩ : PyPath)] (fun _ => none)).exitCode = 0
    ∧ (runMain false true "in" [(⟨[], "a.svg"⟩ : PyPath)] (fun _ => none)).exitCode = 1 :=
  ⟨((C2_exit_codes true true "in" [⟨[], "a.svg"⟩] (fun _ => none)).1 rfl rfl).mpr
      (fun _ _ => rfl),
   ((C2_exit_codes false true "in" [⟨[], "a.svg"⟩] (fun _ => none)).2 (by simp)).1⟩

/-- C3: a discovered file whose conversion raises is caught: `process_file`
returns `False`, the line `Exception processing <path>: <message>` (which
contains the path and the message) is on stderr, and all discovered files
are still tallied — no per-file error ends the loop early. -/
theorem C3_per_file_failure (nm : String) (entries : List PyPath)
    (render : PyPath → Option String) (p : PyPath) (e : String)
    (hp : p ∈ (runMain true true nm entries render).found)
    (he : render p = some e) :
    (∀ fs, (process_file render fs p).ok = false)
    ∧ ("Exception processing " ++ pathStr p ++ ": " ++ e) ∈
        (runMain true true nm entries render).stderr
    ∧ (∃ pre mid, "Exception processing " ++ pathStr p ++ ": " ++ e
        = pre ++ pathStr p ++ mid ++ e)
    ∧ (runMain true true nm entries render).successful
        + (runMain true true nm entries render).failed
        = (runMain true true nm entries render).found.length := by
  rw [runMain_found] at hp
  have hemp : find_files entries ≠ [] := List.ne_nil_of_mem hp
  refine ⟨?_, ?_, ?_, ?_⟩
  · intro fs
    rw [process_file_some render fs p e he]
  · rw [runMain_run nm entries render hemp]
    exact processLoop_stderr_mem render p e he (find_files entries) entries hp
  · exact ⟨"Exception processing ", ": ", rfl⟩
  · rw [runMain_run nm entries render hemp]
    exact processLoop_total render (find_files entries) entries

/-- C3, witness: a failing one-file run logs the exception line. -/
theorem C3_witness :
    ("Exception processing " ++ pathStr ⟨[], "a.svg"⟩ ++ ": " ++ "boom") ∈
      (runMain true true "in" [(⟨[], "a.svg"⟩ : PyPath)]
        (fun _ => some "boom")).stderr :=
  (C3_per_file_failure "in" [⟨[], "a.svg"⟩] (fun _ => some "boom")
    ⟨[], "a.svg"⟩ "boom" (by decide) rfl).2.1

/-- C4: every discovered input's derived output path keeps the input's stem
and parent directory, and for a directory of distinct files all carrying the
`.svg` suffix and all rendering successfully, the writes are exactly the N
derived PNG paths, pairwise distinct, all present afterwards, with exit
code 0. -/
theorem C4_derived_outputs (nm : String) (entries : List PyPath)
    (render : PyPath → Option String)
    (hnd : entries.Nodup)
    (hsvg : ∀ p ∈ find_files entries, pySuffix p.name.data = ".svg".data)
    (hok : ∀ p ∈ find_files entries, render p = none) :
    (∀ p ∈ (runMain true true nm entries render).found,
      (withSuffixPng p).parent = p.parent
      ∧ pyStem (withSuffixPng p).name.data = pyStem p.name.data)
    ∧ (runMain true true nm entries render).writes
        = (runMain true true nm entries render).found.map withSuffixPng
    ∧ (runMain true true nm entries render).writes.Nodup
    ∧ (runMain true true nm entries render).writes.length
        = (runMain true true nm entries render).found.length
    ∧ (∀ w ∈ (runMain true true nm entries render).writes,
        w ∈ (runMain true true nm entries render).fs)
    ∧ (runMain true true nm entries render).exitCode = 0 := by
  have hmapnd : ((find_files entries).map withSuffixPng).Nodup :=
    List.Nodup.map_on
      (fun x hx y hy hxy => withSuffixPng_inj_on_svg x y (hsvg x hx) (hsvg y hy) hxy)
      (find_files_nodup entries hnd)
  have hpart1 : ∀ p ∈ find_files entries,
      (withSuffixPng p).parent = p.parent
      ∧ pyStem (withSuffixPng p).name.data = pyStem p.name.data := by
    intro p hp
    have hm := ((mem_find_files entries p).mp hp).2
    exact ⟨withSuffixPng_parent p, pyStem_withSuffixPng p (matchesSvg_name_ne_nil p hm)⟩
  by_cases hemp : find_files entries = []
  · rw [runMain_empty nm entries render hemp]
    exact ⟨fun p hp => absurd hp (List.not_mem_nil p), rfl, List.nodup_nil, rfl,
      fun w hw => absurd hw (List.not_mem_nil w), rfl⟩
  · rw [runMain_run nm entries render hemp]
    have hwrites : (processLoop render entries (find_files entries)).writes
        = (find_files entries).map withSuffixPng :=
      processLoop_writes_all_ok render (find_files entries) entries hok
    have hfailed : (processLoop render entries (find_files entries)).failed = 0 :=
      (processLoop_failed_zero_iff render (find_files entries) entries).mpr hok
    refine ⟨fun p hp => hpart1 p hp, hwrites, ?_, ?_, ?_, ?_⟩
    · show ((processLoop render entries (find_files entries)).writes).Nodup
      rw [hwrites]
      exact hmapnd
    · show ((processLoop render entries (find_files entries)).writes).length
        = (find_files entries).length
      rw [hwrites, List.length_map]
    · intro w hw
      have hw' : w ∈ (processLoop render entries (find_files entries)).writes := hw
      rw [hwrites] at hw'
      obtain ⟨p, hpmem, hpw⟩ := List.mem_map.mp hw'
      show w ∈ (processLoop render entries (find_files entries)).fs
      rw [← hpw]
      exact processLoop_outputs_mem render (find_files entries) entries hok hmapnd p hpmem
    · show (if (processLoop render entries (find_files entries)).failed > 0
        then 1 else 0) = 0
      rw [hfailed]
      rfl

/-- C4, witness: a run over one valid `.svg` file exits 0. -/
theorem C4_witness :
    (runMain true true "in" [(⟨[], "a.svg"⟩ : PyPath)] (fun _ => none)).exitCode = 0 :=
  (C4_derived_outputs "in" [⟨[], "a.svg"⟩] (fun _ => none) (by decide) (by decide)
    (fun _ _ => rfl)).2.2.2.2.2

/-- C5: conversion unlinks the pre-existing output, then renders: with the
output already present and rendering succeeding, `process_file` returns
`True` (no error about the existing file), the output exists exactly once
afterwards, and it was written by the rendering call. -/
theorem C5_overwrite (render : PyPath → Option String) (fs : List PyPath)
    (f : PyPath) (hex : withSuffixPng f ∈ fs) (hok : render f = none) :
    (process_file render fs f).ok = true
    ∧ (process_file render fs f).fs.count (withSuffixPng f) = 1
    ∧ (process_file render fs f).writes = [withSuffixPng f] := by
  rw [process_file_none render fs f hok]
  refine ⟨rfl, ?_, rfl⟩
  have hnotin : withSuffixPng f ∉ fs.filter (fun q => q ≠ withSuffixPng f) := by
    intro hc
    have hq := (List.mem_filter.mp hc).2
    simp at hq
  show ((withSuffixPng f :: fs.filter (fun q => q ≠ withSuffixPng f)).count
    (withSuffixPng f)) = 1
  rw [List.count_cons_self, List.count_eq_zero.mpr hnotin]

/-- C5, witness: re-processing with the PNG already present succeeds. -/
theorem C5_witness :
    (process_file (fun _ => none) [withSuffixPng ⟨[], "a.svg"⟩] ⟨[], "a.svg"⟩).ok
      = true :=
  (C5_overwrite (fun _ => none) [withSuffixPng ⟨[], "a.svg"⟩] ⟨[], "a.svg"⟩
    (List.mem_cons_self _ _) rfl).1

/-- C6: discovery and the processing order are deterministic: permuting the
filesystem listing does not change the sorted discovery list, which is the
order the loop consumes. -/
theorem C6_deterministic (entries entries' : List PyPath)
    (h : entries.Perm entries') :
    find_files entries = find_files entries'
    ∧ (find_files entries).Sorted (· ≤ ·)
    ∧ ∀ nm render, (runMain true true nm entries render).found
        = (runMain true true nm entries' render).found := by
  refine ⟨find_files_congr entries entries' h, find_files_sorted entries, ?_⟩
  intro nm render
  rw [runMain_found, runMain_found, find_files_congr entries entries' h]

/-- C6, witness: two listing orders of the same two files discover the same
list. -/
theorem C6_witness :
    find_files [(⟨[], "a.svg"⟩ : PyPath), ⟨[], "b.svg"⟩]
      = find_files [(⟨[], "b.svg"⟩ : PyPath), ⟨[], "a.svg"⟩] :=
  (C6_deterministic [⟨[], "a.svg"⟩, ⟨[], "b.svg"⟩] [⟨[], "b.svg"⟩, ⟨[], "a.svg"⟩]
    (by decide)).1

/-- C7, counterexample: a directory holding only `xsvg` — a file with no SVG
extension — does not yield an empty discovery: the `*svg` pattern matches
it, and the run does not exit 0 when its conversion fails. -/
theorem C7_counterexample :
    (∀ p ∈ [(⟨[], "xsvg"⟩ : PyPath)], pySuffix p.name.data ≠ ".svg".data)
    ∧ find_files [(⟨[], "xsvg"⟩ : PyPath)] ≠ []
    ∧ (runMain true true "in" [(⟨[], "xsvg"⟩ : PyPath)]
        (fun _ => some "err")).exitCode = 1 := by
  decide

/-- C7, amended: for an input directory none of whose entries has a name
ending in `svg`, discovery is empty, the zero-files message is printed, and
the run exits 0 having processed and written nothing. -/
theorem C7_no_match (nm : String) (entries : List PyPath)
    (render : PyPath → Option String)
    (h : ∀ p ∈ entries, matchesSvg p = false) :
    (runMain true true nm entries render).found = []
    ∧ (runMain true true nm entries render).exitCode = 0
    ∧ (runMain true true nm entries render).stdout = ["No files found in " ++ nm]
    ∧ (runMain true true nm entries render).successful = 0
    ∧ (runMain true true nm entries render).failed = 0
    ∧ (runMain true true nm entries render).writes = [] := by
  rw [runMain_empty nm entries render (find_files_empty_of_no_match entries h)]
  exact ⟨rfl, rfl, rfl, rfl, rfl, rfl⟩

/-- C7, witness: a directory with only `x.txt` exits 0 reporting no files. -/
theorem C7_witness :
    (runMain true true "in" [(⟨[], "x.txt"⟩ : PyPath)] (fun _ => none)).exitCode
      = 0 :=
  (C7_no_match "in" [⟨[], "x.txt"⟩] (fun _ => none) (by decide)).2.1

/-- C8: a file whose last three name characters are a case variant of `svg`
other than `svg` itself — e.g. a `.SVG` extension — is silently skipped:
it is never discovered, so never converted or counted. -/
theorem C8_case_sensitive (entries : List PyPath) (p : PyPath)
    (base : List Char) (c1 c2 c3 : Char)
    (hn : p.name.data = base ++ [c1, c2, c3])
    (hlower : c1.toLower = 's' ∧ c2.toLower = 'v' ∧ c3.toLower = 'g')
    (hne : [c1, c2, c3] ≠ ['s', 'v', 'g']) :
    p ∉ find_files entries
    ∧ ∀ nm render, p ∉ (runMain true true nm entries render).found := by
  have hm : ¬matchesSvg p = true :=
    fun hc => hne ((matchesSvg_last_three p base c1 c2 c3 hn).mp hc)
  have hnot : p ∉ find_files entries :=
    fun hc => hm ((mem_find_files entries p).mp hc).2
  exact ⟨hnot, fun nm render hc => hnot (by rwa [runMain_found] at hc)⟩

/-- C8, witness: `a.SVG` is not discovered even when present. -/
theorem C8_witness :
    (⟨[], "a.SVG"⟩ : PyPath) ∉ find_files [(⟨[], "a.SVG"⟩ : PyPath)] :=
  (C8_case_sensitive [⟨[], "a.SVG"⟩] ⟨[], "a.SVG"⟩ ['a', '.'] 'S' 'V' 'G'
    rfl (by decide) (by decide)).1

/-- C9: after the loop the counters partition the discovered files, and the
printed summary block carries as its Total exactly Successful plus Failed. -/
theorem C9_counters (nm : String) (entries : List PyPath)
    (render : PyPath → Option String) :
    (runMain true true nm entries render).successful
      + (runMain true true nm entries render).failed
      = (runMain true true nm entries render).found.length
    ∧ ((runMain true true nm entries render).found ≠ [] →
      summaryLines (runMain true true nm entries render).successful
        (runMain true true nm entries render).failed
        ((runMain true true nm entries render).successful
          + (runMain true true nm entries render).failed)
        <:+ (runMain true true nm entries render).stdout) := by
  by_cases hemp : find_files entries = []
  · rw [runMain_empty nm entries render hemp]
    exact ⟨rfl, fun hc => absurd rfl hc⟩
  · rw [runMain_run nm entries render hemp]
    have htot := processLoop_total render (find_files entries) entries
    refine ⟨htot, fun _ => ?_⟩
    show summaryLines (processLoop render entries (find_files entries)).successful
        (processLoop render entries (find_files entries)).failed
        ((processLoop render entries (find_files entries)).successful
          + (processLoop render entries (find_files entries)).failed)
      <:+ ("Found " ++ toString (find_files entries).length ++ " file(s) to process") ::
        (processLoop render entries (find_files entries)).stdout
        ++ summaryLines (processLoop render entries (find_files entries)).successful
            (processLoop render entries (find_files entries)).failed
            (find_files entries).length
    rw [htot]
    exact ⟨("Found " ++ toString (find_files entries).length ++ " file(s) to process") ::
      (processLoop render entries (find_files entries)).stdout, rfl⟩

/-- C9, witness: on a one-file run the counters sum to the discovery count
and the summary block with that Total is printed. -/
theorem C9_witness :
    (runMain true true "in" [(⟨[], "a.svg"⟩ : PyPath)] (fun _ => none)).successful
      + (runMain true true "in" [(⟨[], "a.svg"⟩ : PyPath)] (fun _ => none)).failed
      = (runMain true true "in" [(⟨[], "a.svg"⟩ : PyPath)] (fun _ => none)).found.length
    ∧ summaryLines
        (runMain true true "in" [(⟨[], "a.svg"⟩ : PyPath)] (fun _ => none)).successful
        (runMain true true "in" [(⟨[], "a.svg"⟩ : PyPath)] (fun _ => none)).failed
        ((runMain true true "in" [(⟨[], "a.svg"⟩ : PyPath)] (fun _ => none)).successful
          + (runMain true true "in" [(⟨[], "a.svg"⟩ : PyPath)] (fun _ => none)).failed)
        <:+ (runMain true true "in" [(⟨[], "a.svg"⟩ : PyPath)] (fun _ => none)).stdout :=
  ⟨(C9_counters "in" [⟨[], "a.svg"⟩] (fun _ => none)).1,
   (C9_counters "in" [⟨[], "a.svg"⟩] (fun _ => none)).2 (by decide)⟩

/-- C10: failure is not atomic for the output file: when rendering raises,
the pre-existing file at the derived output path, already unlinked, stays
deleted and `process_file` returns `False`. -/
theorem C10_failure_deletes (render : PyPath → Option String) (fs : List PyPath)
    (f : PyPath) (e : String) (hex : withSuffixPng f ∈ fs)
    (he : render f = some e) :
    (process_file render fs f).ok = false
    ∧ withSuffixPng f ∉ (process_file render fs f).fs := by
  rw [process_file_some render fs f e he]
  refine ⟨rfl, ?_⟩
  intro hc
  have hq := (List.mem_filter.mp hc).2
  simp at hq

/-- C10, witness: a failing conversion leaves the previously existing PNG
deleted. -/
theorem C10_witness :
    withSuffixPng ⟨[], "a.svg"⟩ ∉
      (process_file (fun _ => some "boom") [withSuffixPng ⟨[], "a.svg"⟩]
        ⟨[], "a.svg"⟩).fs :=
  (C10_failure_deletes (fun _ => some "boom") [withSuffixPng ⟨[], "a.svg"⟩]
    ⟨[], "a.svg"⟩ "boom" (List.mem_cons_self _ _) rfl).2
